import Mathlib

/-
Verification of the plant-monitor light-service reading store.

Shallow embedding of the Go sources:
  - internal/domain: LightReading entity, validation, classification, errors.
  - internal/adapters/memory: in-memory ReadingRepository (map keyed by id).
  - internal/adapters/sqlite: SQLite ReadingRepository (rows with text timestamps).
  - internal/adapters/grpc: LightServiceHandler (GetCurrentLight, GetHistory,
    RecordReading) and calculateStatistics.
  - internal/adapters/mock: FakeSensor.

Modelling conventions:
  - Go time.Time is modelled as an Int of nanoseconds since the epoch, in a
    single fixed time zone (the process zone); time.Duration is an Int of
    nanoseconds.  time.Time.After / Before are strict comparisons on this Int.
  - Go float64 lux values are idealized as exact rationals (Rat).  Every
    threshold (200, 2500) and every concrete value used by the claims is
    exactly representable, and the order comparisons in the code coincide with
    the rational ones.
  - Go errors compared with == against the domain sentinel errors are an
    inductive type; fmt.Errorf-wrapped errors are collapsed into one
    constructor (the code never matches on their message).
  - Maps (map[int64]*LightReading) are association lists keyed by id; the
    claims settled here do not depend on Go map iteration order.
-/

/-- Nanoseconds per second: time.Unix(sec, 0) yields sec * nsPerSec, and
formatting with layout ending in whole seconds truncates (floor) to seconds. -/
def nsPerSec : Int := 1000000000

/-- Go errors used by the light service.  ErrInvalidLux, ErrReadingNotFound and
ErrSensorUnavailable are the sentinel errors of internal/domain/errors.go; the
Errorf constructor stands for any fmt.Errorf-wrapped error (I/O failures,
timestamp parse failures); the code only ever compares errors against the
sentinels, never inspects wrapped messages. -/
inductive GoErr where
  | ErrInvalidLux
  | ErrReadingNotFound
  | ErrSensorUnavailable
  | Errorf
  deriving DecidableEq

/-- LightReading (internal/domain/reading.go): ID int64, Lux float64,
Timestamp time.Time. -/
structure LightReading where
  ID : Int
  Lux : Rat
  Timestamp : Int
  deriving DecidableEq

/-- NewLightReading (reading.go): rejects negative lux, otherwise returns a
reading with ID unset (zero value) and Timestamp = time.Now(); the current
time is passed explicitly here. -/
def NewLightReading (lux : Rat) (now : Int) : Except GoErr LightReading :=
  if lux < 0 then .error .ErrInvalidLux
  else .ok { ID := 0, Lux := lux, Timestamp := now }

/-- IsLowLight (reading.go): r.Lux < 200. -/
def LightReading.IsLowLight (r : LightReading) : Bool :=
  r.Lux < 200

/-- IsMediumLight (reading.go): r.Lux >= 200 && r.Lux < 2500. -/
def LightReading.IsMediumLight (r : LightReading) : Bool :=
  200 ≤ r.Lux && r.Lux < 2500

/-- IsHighLight (reading.go): r.Lux >= 2500. -/
def LightReading.IsHighLight (r : LightReading) : Bool :=
  2500 ≤ r.Lux

/-- LightCategory (reading.go): Low, else Medium, else High. -/
def LightReading.LightCategory (r : LightReading) : String :=
  if r.IsLowLight then "Low Light"
  else if r.IsMediumLight then "Medium Light"
  else "High Light"

/-- FakeSensor (internal/adapters/mock/fake_sensor.go): base value and
variation. -/
structure FakeSensor where
  baseValue : Rat
  variation : Rat

/-- FakeSensor.ReadLux: lux = base + (rand.Float64() - 0.5) * 2 * variation,
clamped below at 0.  rand.Float64() is passed in as rand01 (in Go it lies in
the interval from 0 inclusive to 1 exclusive; the results below hold for every
rational draw).  The Go method always returns a nil error. -/
def FakeSensor.ReadLux (s : FakeSensor) (rand01 : Rat) : Rat :=
  let variance := (rand01 - 1/2) * 2 * s.variation
  let lux := s.baseValue + variance
  if lux < 0 then 0 else lux

namespace memory

/-- insert-or-replace for the association list modelling
map[int64]*LightReading assignment m[k] = v. -/
def mapSet (k : Int) (v : LightReading) :
    List (Int × LightReading) → List (Int × LightReading)
  | [] => [(k, v)]
  | (k', v') :: rest =>
      if k' = k then (k, v) :: rest else (k', v') :: mapSet k v rest

/-- lookup for the association list modelling map access m[k]. -/
def mapGet (k : Int) : List (Int × LightReading) → Option LightReading
  | [] => none
  | (k', v') :: rest => if k' = k then some v' else mapGet k rest

/-- memory.ReadingRepository (internal/adapters/memory): map keyed by id plus
the monotonically incrementing id counter. -/
structure ReadingRepository where
  readings : List (Int × LightReading)
  nextID : Int
  deriving DecidableEq

/-- memory.NewReadingRepository: empty map, nextID 1. -/
def NewReadingRepository : ReadingRepository :=
  { readings := [], nextID := 1 }

/-- memory.SaveReading: assigns an id from the counter only when reading.ID is
zero, then stores the reading under its id.  The Go method mutates the reading
in place and always returns a nil error; here the (possibly updated) reading
is returned alongside the new state. -/
def SaveReading (st : ReadingRepository) (reading : LightReading) :
    LightReading × ReadingRepository :=
  let r := if reading.ID = 0 then { reading with ID := st.nextID } else reading
  let next := if reading.ID = 0 then st.nextID + 1 else st.nextID
  (r, { readings := mapSet r.ID r st.readings, nextID := next })

/-- memory.GetReading: map lookup, ErrReadingNotFound when absent.  The Go
method returns the stored pointer itself; this value-level model suffices for
every claim except aliasing, which is settled on the heap model below. -/
def GetReading (st : ReadingRepository) (id : Int) :
    Except GoErr LightReading :=
  match mapGet id st.readings with
  | none => .error .ErrReadingNotFound
  | some r => .ok r

/-- memory.GetReadingsInRange: full scan keeping the readings with
reading.Timestamp.After(start) && reading.Timestamp.Before(end) — both
comparisons strict — then sort.Slice ascending by Timestamp. -/
def GetReadingsInRange (st : ReadingRepository) (startTime endTime : Int) :
    List LightReading :=
  let results := (st.readings.map (·.2)).filter
    (fun r => startTime < r.Timestamp && r.Timestamp < endTime)
  results.insertionSort (fun a b => a.Timestamp < b.Timestamp)

/-- memory.GetLatestReading: ErrReadingNotFound on an empty map, otherwise the
scan keeping the strictly later reading (ties keep the earlier-visited one;
Go map iteration order is unspecified). -/
def GetLatestReading (st : ReadingRepository) : Except GoErr LightReading :=
  match st.readings with
  | [] => .error .ErrReadingNotFound
  | (_, r0) :: rest =>
      .ok (rest.foldl
        (fun latest (p : Int × LightReading) =>
          if latest.Timestamp < p.2.Timestamp then p.2 else latest) r0)

/-- memory.DeleteOldReadings: cutoff = now - olderThan, delete every entry
with reading.Timestamp.Before(cutoff); always returns a nil error. -/
def DeleteOldReadings (st : ReadingRepository) (now olderThan : Int) :
    Except GoErr ReadingRepository :=
  let cutoff := now - olderThan
  .ok { st with readings :=
    st.readings.filter (fun p => !(p.2.Timestamp < cutoff)) }

end memory

namespace sqlite

/-
The SQLite adapter stores timestamps as TEXT and compares them with SQL string
comparison.  Two distinct serializations occur:

  - Query parameters (GetReadingsInRange bounds, DeleteOldReadings cutoff) are
    produced by t.Format("2006-01-02 15:04:05"): a fixed-width, zero-padded,
    19-character rendering of the civil second containing t, with nothing
    after the seconds field.
  - SaveReading binds reading.Timestamp as a raw time.Time; the go-sqlite3
    driver serializes it with the layout
    "2006-01-02 15:04:05.999999999-07:00", i.e. the same 19-character prefix
    followed by an optional fractional-second part and a mandatory zone-offset
    part, so the stored text always strictly extends its 19-character prefix.

Within one time zone the 19-character prefix is order-isomorphic to the count
of whole seconds (floor), and for strings sharing that prefix the bare
parameter text is a proper prefix of any stored text, hence lexicographically
smaller.  A timestamp text is therefore modelled as its whole-second count
plus a flag recording whether anything follows the 19-character prefix.  Every
comparison the SQL executes is between a stored text and a bare parameter
text, which the two order relations below capture exactly.
-/

/-- A serialized timestamp: sec is the whole-second count rendered by the
19-character prefix, trailing is true when the text extends beyond that prefix
(driver-written rows), false for bare "2006-01-02 15:04:05" texts. -/
structure TsText where
  sec : Int
  trailing : Bool
  deriving DecidableEq

/-- t.Format("2006-01-02 15:04:05"): the bare second-resolution text of the
civil second containing t (floor to whole seconds). -/
def paramText (t : Int) : TsText :=
  { sec := Int.fdiv t nsPerSec, trailing := false }

/-- The text the go-sqlite3 driver stores when SaveReading binds a raw
time.Time: same whole-second prefix, always followed by the zone offset (and
any fractional seconds), so trailing is always true. -/
def driverText (t : Int) : TsText :=
  { sec := Int.fdiv t nsPerSec, trailing := true }

/-- SQL string less-than between two timestamp texts: compare the
19-character prefixes (their whole-second counts); on equal prefixes a text
with trailing characters is strictly greater than a bare one.  Two texts with
equal prefixes that both trail are compared only in ORDER BY ties here, never
in a WHERE clause, and are treated as equal. -/
def TsText.lt (a b : TsText) : Bool :=
  a.sec < b.sec || (a.sec == b.sec && !a.trailing && b.trailing)

/-- SQL string less-or-equal between timestamp texts. -/
def TsText.le (a b : TsText) : Bool :=
  TsText.lt a b || (a.sec == b.sec && a.trailing == b.trailing)

/-- time.Parse("2006-01-02 15:04:05", s): succeeds only when s is exactly the
19-character layout — any trailing characters make the parse fail — and the
parsed time carries whole seconds only.  (With the go-sqlite3 driver the
string scanned back for a DATETIME column is never the bare layout when the
row was written by this SaveReading: the stored text keeps its zone suffix,
and the datetime conversion of the driver re-renders as RFC 3339.) -/
def timeParseSecondLayout (s : TsText) : Option Int :=
  if s.trailing then none else some (s.sec * nsPerSec)

/-- One row of the light_readings table: id INTEGER PRIMARY KEY AUTOINCREMENT,
lux REAL, timestamp TEXT (declared DATETIME). -/
structure SqliteRow where
  id : Int
  lux : Rat
  tsText : TsText
  deriving DecidableEq

/-- sqlite.ReadingRepository: the table rows plus the AUTOINCREMENT counter
(LastInsertId of the next INSERT). -/
structure ReadingRepository where
  rows : List SqliteRow
  nextID : Int
  deriving DecidableEq

/-- A freshly created table (NewReadingRepository after CREATE TABLE):
no rows, first rowid 1. -/
def NewReadingRepository : ReadingRepository :=
  { rows := [], nextID := 1 }

/-- sqlite.SaveReading: INSERT INTO light_readings (lux, timestamp) — the
timestamp bound as a raw time.Time, stored in the driver format — then
reading.ID = result.LastInsertId(), unconditionally, whether or not the
reading already had an id.  I/O failure aside, the operation succeeds. -/
def SaveReading (st : ReadingRepository) (reading : LightReading) :
    LightReading × ReadingRepository :=
  let row : SqliteRow :=
    { id := st.nextID, lux := reading.Lux,
      tsText := driverText reading.Timestamp }
  ({ reading with ID := st.nextID },
   { rows := st.rows ++ [row], nextID := st.nextID + 1 })

/-- Find a row by primary key (SELECT ... WHERE id = ?). -/
def findRow (id : Int) : List SqliteRow → Option SqliteRow
  | [] => none
  | row :: rest => if row.id = id then some row else findRow id rest

/-- sqlite.GetReading: SELECT by id — sql.ErrNoRows becomes
ErrReadingNotFound — then time.Parse("2006-01-02 15:04:05", timestamp); a
parse failure is returned as a wrapped error, not as a reading. -/
def GetReading (st : ReadingRepository) (id : Int) :
    Except GoErr LightReading :=
  match findRow id st.rows with
  | none => .error .ErrReadingNotFound
  | some row =>
      match timeParseSecondLayout row.tsText with
      | none => .error .Errorf
      | some t => .ok { ID := row.id, Lux := row.lux, Timestamp := t }

/-- Scan loop of GetReadingsInRange: parse the timestamp of each row with the bare
second layout, aborting with a wrapped error on the first failure. -/
def scanRows : List SqliteRow → Except GoErr (List LightReading)
  | [] => .ok []
  | row :: rest =>
      match timeParseSecondLayout row.tsText with
      | none => .error .Errorf
      | some t =>
          match scanRows rest with
          | .error e => .error e
          | .ok rs => .ok ({ ID := row.id, Lux := row.lux, Timestamp := t }
              :: rs)

/-- sqlite.GetReadingsInRange: WHERE timestamp >= start-text AND
timestamp <= end-text (both parameters in the bare second layout) ORDER BY
timestamp ASC, then the scan loop parses every selected row. -/
def GetReadingsInRange (st : ReadingRepository) (startTime endTime : Int) :
    Except GoErr (List LightReading) :=
  let startText := paramText startTime
  let endText := paramText endTime
  let selected := st.rows.filter
    (fun row => !(TsText.lt row.tsText startText) &&
      TsText.le row.tsText endText)
  scanRows (selected.insertionSort (fun a b => TsText.lt a.tsText b.tsText))

/-- sqlite.GetLatestReading: ORDER BY timestamp DESC LIMIT 1 (sql.ErrNoRows on
an empty table becomes ErrReadingNotFound), then the same timestamp parse. -/
def GetLatestReading (st : ReadingRepository) : Except GoErr LightReading :=
  match st.rows with
  | [] => .error .ErrReadingNotFound
  | row0 :: rest =>
      let top := rest.foldl
        (fun acc row => if TsText.lt acc.tsText row.tsText then row else acc)
        row0
      match timeParseSecondLayout top.tsText with
      | none => .error .Errorf
      | some t => .ok { ID := top.id, Lux := top.lux, Timestamp := t }

/-- sqlite.DeleteOldReadings: cutoff = time.Now().Add(-olderThan), then
DELETE FROM light_readings WHERE timestamp < cutoff-text with the cutoff in
the bare second layout; I/O failure aside, it always succeeds, deleting
nothing when no row matches. -/
def DeleteOldReadings (st : ReadingRepository) (now olderThan : Int) :
    Except GoErr ReadingRepository :=
  let cutoffText := paramText (now - olderThan)
  .ok { st with rows :=
    st.rows.filter (fun row => !(TsText.lt row.tsText cutoffText)) }

end sqlite

namespace grpc

/-- gRPC status classifications the handler returns (codes.Internal and
codes.InvalidArgument; messages are not inspected by any caller). -/
inductive GrpcErr where
  | Internal
  | InvalidArgument
  deriving DecidableEq

/-- The domain.ReadingRepository interface as the handler consumes it, over an
abstract backend state σ: each operation is the corresponding Go method, with
mutation of the passed reading (id assignment) and of the backend made
explicit.  The two adapters above give the two instances. -/
structure RepoOps (σ : Type) where
  GetLatestReading : σ → Except GoErr LightReading
  SaveReading : LightReading → σ → Except GoErr (LightReading × σ)
  GetReadingsInRange : Int → Int → σ → Except GoErr (List LightReading)

/-- The ports.LightSensor interface over an abstract sensor state τ: ReadLux
returns the read outcome and the successor state (the state advances whether
or not the read succeeds, so it can count read attempts). -/
structure SensorOps (τ : Type) where
  ReadLux : τ → Except GoErr Rat × τ

/-- statistics (handler.go): average, min and max lux. -/
structure statistics where
  average : Rat
  min : Rat
  max : Rat
  deriving DecidableEq

/-- calculateStatistics (handler.go): zero value on an empty slice, otherwise
one pass accumulating the sum and scanning min and max starting from the
first element. -/
def calculateStatistics (readings : List LightReading) : statistics :=
  match readings with
  | [] => { average := 0, min := 0, max := 0 }
  | r0 :: _ =>
      let sum := readings.foldl (fun acc r => acc + r.Lux) 0
      let mn := readings.foldl
        (fun acc r => if r.Lux < acc then r.Lux else acc) r0.Lux
      let mx := readings.foldl
        (fun acc r => if acc < r.Lux then r.Lux else acc) r0.Lux
      { average := sum / (readings.length : Rat), min := mn, max := mx }

/-- GetCurrentLight (handler.go): GetLatestReading; on ErrReadingNotFound read
the sensor, construct a reading, save it best-effort (a save failure is
logged and the reading is still returned) and return it; any other repository
error, a sensor failure, or a construction failure is an Internal error.
Returns the response (or status error) with the final repository and sensor
states. -/
def GetCurrentLight {σ τ : Type} (repo : RepoOps σ) (sensor : SensorOps τ)
    (now : Int) (st : σ) (sst : τ) :
    Except GrpcErr LightReading × σ × τ :=
  match repo.GetLatestReading st with
  | .ok reading => (.ok reading, st, sst)
  | .error e =>
      if e = .ErrReadingNotFound then
        match sensor.ReadLux sst with
        | (.error _, sst') => (.error .Internal, st, sst')
        | (.ok lux, sst') =>
            match NewLightReading lux now with
            | .error _ => (.error .Internal, st, sst')
            | .ok reading =>
                match repo.SaveReading reading st with
                | .ok (r', st') => (.ok r', st', sst')
                | .error _ => (.ok reading, st, sst')
      else (.error .Internal, st, sst)

/-- GetHistory (handler.go): start = time.Unix(req.StartTime, 0), end =
time.Unix(req.EndTime, 0), GetReadingsInRange, then calculateStatistics; a
repository error is an Internal error.  The response carries the readings and
the three statistics. -/
def GetHistory {σ : Type} (repo : RepoOps σ) (startSec endSec : Int)
    (st : σ) : Except GrpcErr (List LightReading × statistics) :=
  let startTime := startSec * nsPerSec
  let endTime := endSec * nsPerSec
  match repo.GetReadingsInRange startTime endTime st with
  | .error _ => .error .Internal
  | .ok readings => .ok (readings, calculateStatistics readings)

/-- RecordReading (handler.go): NewLightReading(req.Lux) — a validation
failure is returned as codes.InvalidArgument — then SaveReading, whose
failure here is codes.Internal; on success the saved reading is returned. -/
def RecordReading {σ : Type} (repo : RepoOps σ) (lux : Rat) (now : Int)
    (st : σ) : Except GrpcErr LightReading × σ :=
  match NewLightReading lux now with
  | .error _ => (.error .InvalidArgument, st)
  | .ok reading =>
      match repo.SaveReading reading st with
      | .error _ => (.error .Internal, st)
      | .ok (r', st') => (.ok r', st')

end grpc

/-- The memory adapter as a RepoOps instance: SaveReading and
GetReadingsInRange never fail, GetLatestReading fails only with
ErrReadingNotFound. -/
def memOps : grpc.RepoOps memory.ReadingRepository :=
  { GetLatestReading := memory.GetLatestReading
    SaveReading := fun r st => .ok (memory.SaveReading st r)
    GetReadingsInRange := fun s e st =>
      .ok (memory.GetReadingsInRange st s e) }

/-- The sqlite adapter as a RepoOps instance (I/O failures aside). -/
def sqliteOps : grpc.RepoOps sqlite.ReadingRepository :=
  { GetLatestReading := sqlite.GetLatestReading
    SaveReading := fun r st => .ok (sqlite.SaveReading st r)
    GetReadingsInRange := fun s e st =>
      sqlite.GetReadingsInRange st s e }

/-- An instrumented sensor: values answers every read attempt in order and
count records how many reads have happened.  ReadLux never fails (the mock
sensor contract). -/
structure SensorTrace where
  values : Nat → Rat
  count : Nat

/-- SensorOps instance for the instrumented sensor: each call returns the next
value and bumps the attempt counter. -/
def traceSensorOps : grpc.SensorOps SensorTrace :=
  { ReadLux := fun s => (.ok (s.values s.count),
      { s with count := s.count + 1 }) }

/-- A repository whose store is empty and whose SaveReading always fails with
a wrapped storage error: the environment that exercises the best-effort save
of the GetCurrentLight miss path. -/
def failingSaveOps : grpc.RepoOps Unit :=
  { GetLatestReading := fun _ => .error .ErrReadingNotFound
    SaveReading := fun _ _ => .error .Errorf
    GetReadingsInRange := fun _ _ _ => .error .Errorf }

namespace memheap

/-
Pointer-level model of the memory adapter, refining the value-level model
above with an explicit heap, because the adapter traffics in *LightReading:
SaveReading mutates the caller object through its pointer and stores that
pointer in the map, and GetReading returns the stored pointer itself.  Only
SaveReading and GetReading are needed at this level (the aliasing claim).
-/

/-- A Go pointer to a LightReading. -/
abbrev Ptr := Nat

/-- The heap: which LightReading each allocated pointer currently holds. -/
def Heap := List (Ptr × LightReading)

/-- Dereference a pointer. -/
def deref (h : Heap) (p : Ptr) : Option LightReading :=
  match h with
  | [] => none
  | (q, r) :: rest => if q = p then some r else deref rest p

/-- Write through a pointer (the caller assigning reading.Lux = v, or the
adapter assigning reading.ID = id). -/
def writeLux (h : Heap) (p : Ptr) (v : Rat) : Heap :=
  match h with
  | [] => []
  | (q, r) :: rest =>
      if q = p then (q, { r with Lux := v }) :: rest
      else (q, r) :: writeLux rest p v

/-- Write the ID field behind a pointer. -/
def writeID (h : Heap) (p : Ptr) (id : Int) : Heap :=
  match h with
  | [] => []
  | (q, r) :: rest =>
      if q = p then (q, { r with ID := id }) :: rest
      else (q, r) :: writeID rest p id

/-- The memory repository at pointer level: the map stores pointers, not
copies. -/
structure RepositoryP where
  readings : List (Int × Ptr)
  nextID : Int

/-- memory.SaveReading on the heap: if reading.ID == 0, assign the counter id
through the pointer, then store the pointer itself under that id (the Go code
never copies the reading).  Returns the heap and repository after the call. -/
def SaveReadingP (h : Heap) (st : RepositoryP) (p : Ptr) :
    Heap × RepositoryP :=
  match deref h p with
  | none => (h, st)
  | some r =>
      let id := if r.ID = 0 then st.nextID else r.ID
      let h' := if r.ID = 0 then writeID h p st.nextID else h
      let next := if r.ID = 0 then st.nextID + 1 else st.nextID
      (h', { readings := (id, p) ::
        st.readings.filter (fun q => q.1 ≠ id), nextID := next })

/-- memory.GetReading on the heap: returns the stored pointer — the very
object SaveReading stored — or ErrReadingNotFound. -/
def GetReadingP (st : RepositoryP) (id : Int) : Except GoErr Ptr :=
  match st.readings.find? (fun q => q.1 = id) with
  | none => .error .ErrReadingNotFound
  | some q => .ok q.2

end memheap

/-- Eviction example store (spec §8): a memory backend holding a reading 48
hours old (id 1) and one 1 hour old (id 2), against now = 100 h after the
epoch. -/
def c6MemBefore : memory.ReadingRepository :=
  { readings :=
      [(1, { ID := 1, Lux := 100, Timestamp := 187200 * nsPerSec }),
       (2, { ID := 2, Lux := 200, Timestamp := 356400 * nsPerSec })],
    nextID := 3 }

/-- The eviction example store after deleteOlderThan(24 h): only the 1-hour-old
reading remains. -/
def c6MemAfter : memory.ReadingRepository :=
  { readings :=
      [(2, { ID := 2, Lux := 200, Timestamp := 356400 * nsPerSec })],
    nextID := 3 }

/-- Eviction example store, SQLite backend: the same two readings as rows
written by SaveReading (driver-format timestamp text). -/
def c6SqlBefore : sqlite.ReadingRepository :=
  { rows :=
      [{ id := 1, lux := 100,
         tsText := sqlite.driverText (187200 * nsPerSec) },
       { id := 2, lux := 200,
         tsText := sqlite.driverText (356400 * nsPerSec) }],
    nextID := 3 }

/-- The SQLite eviction example store after deleteOlderThan(24 h). -/
def c6SqlAfter : sqlite.ReadingRepository :=
  { rows :=
      [{ id := 2, lux := 200,
         tsText := sqlite.driverText (356400 * nsPerSec) }],
    nextID := 3 }

deriving instance DecidableEq for Except

section helperLemmas

/-- The sum accumulator of calculateStatistics computes the list sum. -/
theorem foldl_add_lux (rs : List LightReading) (a : Rat) :
    rs.foldl (fun acc r => acc + r.Lux) a = a + (rs.map (·.Lux)).sum := by
  induction rs generalizing a with
  | nil => simp
  | cons r rest ih =>
      simp only [List.foldl, List.map, List.sum_cons, ih (a + r.Lux)]
      ring

/-- The min accumulator of calculateStatistics never exceeds its seed. -/
theorem foldl_min_le_init (rs : List LightReading) (a : Rat) :
    rs.foldl (fun acc r => if r.Lux < acc then r.Lux else acc) a ≤ a := by
  induction rs generalizing a with
  | nil => simp
  | cons r rest ih =>
      simp only [List.foldl]
      by_cases h : r.Lux < a
      · simpa [h] using le_trans (ih r.Lux) (le_of_lt h)
      · simpa [h] using ih a

/-- The min accumulator of calculateStatistics is a lower bound of the list. -/
theorem foldl_min_le_mem (rs : List LightReading) (a : Rat) :
    ∀ r ∈ rs, rs.foldl (fun acc r => if r.Lux < acc then r.Lux else acc) a
      ≤ r.Lux := by
  induction rs generalizing a with
  | nil => simp
  | cons r rest ih =>
      intro x hx
      rcases List.mem_cons.mp hx with hx | hx
      · subst hx
        simp only [List.foldl]
        by_cases h : x.Lux < a
        · simpa [h] using foldl_min_le_init rest x.Lux
        · exact le_trans (by simpa [h] using foldl_min_le_init rest a)
            (le_of_not_lt h)
      · simp only [List.foldl]
        exact ih _ x hx

/-- The min accumulator of calculateStatistics is the seed or a list value. -/
theorem foldl_min_mem (rs : List LightReading) (a : Rat) :
    rs.foldl (fun acc r => if r.Lux < acc then r.Lux else acc) a = a
    ∨ rs.foldl (fun acc r => if r.Lux < acc then r.Lux else acc) a
        ∈ rs.map (·.Lux) := by
  induction rs generalizing a with
  | nil => simp
  | cons r rest ih =>
      simp only [List.foldl, List.map, List.mem_cons]
      by_cases h : r.Lux < a
      · simp only [h, if_true]
        rcases ih r.Lux with h' | h'
        · exact Or.inr (Or.inl h')
        · exact Or.inr (Or.inr h')
      · simp only [h, if_false]
        rcases ih a with h' | h'
        · exact Or.inl h'
        · exact Or.inr (Or.inr h')

/-- The max accumulator of calculateStatistics is at least its seed. -/
theorem foldl_max_ge_init (rs : List LightReading) (a : Rat) :
    a ≤ rs.foldl (fun acc r => if acc < r.Lux then r.Lux else acc) a := by
  induction rs generalizing a with
  | nil => simp
  | cons r rest ih =>
      simp only [List.foldl]
      by_cases h : a < r.Lux
      · simpa [h] using le_trans (le_of_lt h) (ih r.Lux)
      · simpa [h] using ih a

/-- The max accumulator of calculateStatistics is an upper bound of the
list. -/
theorem foldl_max_ge_mem (rs : List LightReading) (a : Rat) :
    ∀ r ∈ rs, r.Lux ≤
      rs.foldl (fun acc r => if acc < r.Lux then r.Lux else acc) a := by
  induction rs generalizing a with
  | nil => simp
  | cons r rest ih =>
      intro x hx
      rcases List.mem_cons.mp hx with hx | hx
      · subst hx
        simp only [List.foldl]
        by_cases h : a < x.Lux
        · simpa [h] using foldl_max_ge_init rest x.Lux
        · exact le_trans (le_of_not_lt h)
            (by simpa [h] using foldl_max_ge_init rest a)
      · simp only [List.foldl]
        exact ih _ x hx

/-- The max accumulator of calculateStatistics is the seed or a list value. -/
theorem foldl_max_mem (rs : List LightReading) (a : Rat) :
    rs.foldl (fun acc r => if acc < r.Lux then r.Lux else acc) a = a
    ∨ rs.foldl (fun acc r => if acc < r.Lux then r.Lux else acc) a
        ∈ rs.map (·.Lux) := by
  induction rs generalizing a with
  | nil => simp
  | cons r rest ih =>
      simp only [List.foldl, List.map, List.mem_cons]
      by_cases h : a < r.Lux
      · simp only [h, if_true]
        rcases ih r.Lux with h' | h'
        · exact Or.inr (Or.inl h')
        · exact Or.inr (Or.inr h')
      · simp only [h, if_false]
        rcases ih a with h' | h'
        · exact Or.inl h'
        · exact Or.inr (Or.inr h')

/-- mapGet misses every association list whose keys avoid the probed id. -/
theorem mapGet_eq_none_of_not_mem (id : Int)
    (l : List (Int × LightReading)) (h : id ∉ l.map Prod.fst) :
    memory.mapGet id l = none := by
  induction l with
  | nil => rfl
  | cons p rest ih =>
      obtain ⟨k, v⟩ := p
      simp only [List.map, List.mem_cons, not_or] at h
      simp only [memory.mapGet]
      rw [if_neg (fun hk => h.1 hk.symm)]
      exact ih h.2

/-- mapGet after a filter misses an id whose (unique) entry the filter
dropped. -/
theorem mapGet_filter_eq_none (id : Int) (l : List (Int × LightReading))
    (p : Int × LightReading → Bool) (r : LightReading)
    (hnd : (l.map Prod.fst).Nodup) (hget : memory.mapGet id l = some r)
    (hp : p (id, r) = false) : memory.mapGet id (l.filter p) = none := by
  induction l with
  | nil => cases hget
  | cons q rest ih =>
      obtain ⟨k, v⟩ := q
      simp only [List.map, List.nodup_cons] at hnd
      by_cases hk : k = id
      · subst hk
        have hv : v = r := by simpa [memory.mapGet] using hget
        subst hv
        rw [List.filter_cons, if_neg (by simp [hp])]
        apply mapGet_eq_none_of_not_mem
        intro hmem
        rcases List.mem_map.mp hmem with ⟨q, hq, hq1⟩
        exact hnd.1 (hq1 ▸ List.mem_map_of_mem Prod.fst
          (List.mem_of_mem_filter hq))
      · have hget' : memory.mapGet id rest = some r := by
          simpa [memory.mapGet, hk] using hget
        rw [List.filter_cons]
        cases hpv : p (k, v) with
        | true =>
            rw [if_pos (by simp [hpv])]
            simp only [memory.mapGet, if_neg hk]
            exact ih hnd.2 hget'
        | false =>
            rw [if_neg (by simp [hpv])]
            exact ih hnd.2 hget'

end helperLemmas

/-- Claim C1: getInRange was claimed to select by the half-open interval
[start, end) identically in both backends, so a Reading whose timestamp
equals start must be included.  The memory adapter violates this: its filter
reading.Timestamp.After(start) && reading.Timestamp.Before(end) is strict at
both bounds, so a stored reading at exactly start is omitted from the result
even though it is present in the store (second conjunct).  This contradicts
the half-open doc comment on domain.ReadingRepository.GetReadingsInRange, the
inclusive-start SQLite adapter test, and the plan document, which lists the
boundary inconsistency as a known bug to fix. -/
theorem C1_memory_excludes_start_boundary :
    memory.GetReadingsInRange
      { readings :=
          [(1, { ID := 1, Lux := 500, Timestamp := 100 * nsPerSec })],
        nextID := 2 }
      (100 * nsPerSec) (3700 * nsPerSec) = []
    ∧ memory.GetReading
      { readings :=
          [(1, { ID := 1, Lux := 500, Timestamp := 100 * nsPerSec })],
        nextID := 2 } 1
      = .ok { ID := 1, Lux := 500, Timestamp := 100 * nsPerSec } := by
  decide

/-- Claim C2, counterexample: in the SQLite backend an id is not assigned
exactly once.  SaveReading always inserts a new row and unconditionally
overwrites reading.ID with LastInsertId, so saving the same already-saved
Reading object a second time reassigns its id from 1 to 2. -/
theorem C2_sqlite_second_save_reassigns_id :
    (sqlite.SaveReading sqlite.NewReadingRepository
      { ID := 0, Lux := 500, Timestamp := 0 }).1.ID = 1
    ∧ (sqlite.SaveReading
        (sqlite.SaveReading sqlite.NewReadingRepository
          { ID := 0, Lux := 500, Timestamp := 0 }).2
        (sqlite.SaveReading sqlite.NewReadingRepository
          { ID := 0, Lux := 500, Timestamp := 0 }).1).1.ID = 2 := by
  decide

/-- Claim C2, amended: only the in-memory backend assigns the id exactly once.
Memory: a save assigns the counter id only when reading.ID is zero, an
already-assigned id is kept, and in particular a first save (from a nonzero
counter, as maintained from NewReadingRepository on) followed by a second save
of the returned reading leaves the id unchanged.  SQLite: every save
overwrites reading.ID with the fresh row id, so a second save of the same
object changes its id. -/
theorem C2_amended_id_assignment :
    (∀ (st : memory.ReadingRepository) (r : LightReading), r.ID ≠ 0 →
        (memory.SaveReading st r).1.ID = r.ID)
    ∧ (∀ (st : memory.ReadingRepository) (r : LightReading), r.ID = 0 →
        (memory.SaveReading st r).1.ID = st.nextID)
    ∧ (∀ (st : memory.ReadingRepository) (r : LightReading), r.ID = 0 →
        st.nextID ≠ 0 →
        (memory.SaveReading (memory.SaveReading st r).2
          (memory.SaveReading st r).1).1.ID
          = (memory.SaveReading st r).1.ID)
    ∧ (∀ (st : sqlite.ReadingRepository) (r : LightReading),
        (sqlite.SaveReading st r).1.ID = st.nextID
        ∧ (sqlite.SaveReading (sqlite.SaveReading st r).2
            (sqlite.SaveReading st r).1).1.ID = st.nextID + 1) := by
  refine ⟨?_, ?_, ?_, ?_⟩
  · intro st r h
    simp [memory.SaveReading, h]
  · intro st r h
    simp [memory.SaveReading, h]
  · intro st r h hn
    simp [memory.SaveReading, h, hn]
  · intro st r
    exact ⟨rfl, rfl⟩

/-- Claim C2, amended, witness at a concrete input: from a fresh memory
repository, the first save of an unsaved reading assigns id 1 and an
immediate second save keeps id 1. -/
theorem C2_amended_id_assignment_witness :
    (memory.SaveReading memory.NewReadingRepository
      { ID := 0, Lux := 500, Timestamp := 0 }).1.ID = 1
    ∧ (memory.SaveReading
        (memory.SaveReading memory.NewReadingRepository
          { ID := 0, Lux := 500, Timestamp := 0 }).2
        (memory.SaveReading memory.NewReadingRepository
          { ID := 0, Lux := 500, Timestamp := 0 }).1).1.ID
      = (memory.SaveReading memory.NewReadingRepository
          { ID := 0, Lux := 500, Timestamp := 0 }).1.ID := by
  constructor
  · exact C2_amended_id_assignment.2.1 memory.NewReadingRepository
      { ID := 0, Lux := 500, Timestamp := 0 } (by decide)
  · exact C2_amended_id_assignment.2.2.1 memory.NewReadingRepository
      { ID := 0, Lux := 500, Timestamp := 0 } (by decide) (by decide)

/-- Claim C3: the SQLite save/read round trip does not return the timestamp
truncated to whole seconds — it fails outright.  SaveReading binds the raw
time.Time, which the driver serializes with its own layout whose text always
extends past the bare 19-character second layout (first conjunct: the parse
of any driver-written text fails), so GetReading of a just-saved reading
returns a wrapped timestamp-parse error instead of a reading (second
conjunct), contradicting the adapter test TestSaveAndGetReading, which
expects the round trip to succeed. -/
theorem C3_sqlite_save_get_round_trip_fails :
    (∀ t : Int, sqlite.timeParseSecondLayout (sqlite.driverText t) = none)
    ∧ sqlite.GetReading
        (sqlite.SaveReading sqlite.NewReadingRepository
          { ID := 0, Lux := 500, Timestamp := 0 }).2 1
      = .error .Errorf := by
  exact ⟨fun t => rfl, by decide⟩

/-- Claim C4: GetCurrentLight on a store with zero readings (getLatest fails
with ErrReadingNotFound) performs exactly one sensor read (the instrumented
sensor count goes from 0 to 1), returns a reading whose lux equals the value
the sensor produced (with the fresh id and the request time), and stores it;
a second call then returns that stored latest reading with the sensor count
still 1 (no further read); and on the miss path a failing SaveReading is
swallowed — the response still carries the sensor value (with the id left
unassigned).  The sensor value is non-negative, as the Sensor Port
guarantees. -/
theorem C4_get_current_read_through_on_miss
    (f : Nat → Rat) (now now2 : Int) (h0 : 0 ≤ f 0) :
    (grpc.GetCurrentLight memOps traceSensorOps now
        memory.NewReadingRepository { values := f, count := 0 }).1
      = .ok { ID := 1, Lux := f 0, Timestamp := now }
    ∧ (grpc.GetCurrentLight memOps traceSensorOps now
        memory.NewReadingRepository { values := f, count := 0 }).2.2.count = 1
    ∧ (grpc.GetCurrentLight memOps traceSensorOps now2
        (grpc.GetCurrentLight memOps traceSensorOps now
          memory.NewReadingRepository { values := f, count := 0 }).2.1
        (grpc.GetCurrentLight memOps traceSensorOps now
          memory.NewReadingRepository { values := f, count := 0 }).2.2).1
      = .ok { ID := 1, Lux := f 0, Timestamp := now }
    ∧ (grpc.GetCurrentLight memOps traceSensorOps now2
        (grpc.GetCurrentLight memOps traceSensorOps now
          memory.NewReadingRepository { values := f, count := 0 }).2.1
        (grpc.GetCurrentLight memOps traceSensorOps now
          memory.NewReadingRepository { values := f, count := 0 }).2.2).2.2.count
      = 1
    ∧ (grpc.GetCurrentLight failingSaveOps traceSensorOps now ()
        { values := f, count := 0 }).1
      = .ok { ID := 0, Lux := f 0, Timestamp := now } := by
  have hnn : ¬ (f 0 < 0) := not_lt.mpr h0
  refine ⟨?_, ?_, ?_, ?_, ?_⟩ <;>
    simp [grpc.GetCurrentLight, memOps, traceSensorOps, failingSaveOps,
      memory.NewReadingRepository, memory.GetLatestReading,
      memory.SaveReading, memory.mapSet, NewLightReading, hnn]

/-- Claim C4, witness at a concrete input: a sensor that always reads 500 on
an empty store — the first GetCurrentLight returns lux 500 with exactly one
sensor read. -/
theorem C4_get_current_read_through_on_miss_witness :
    0 ≤ ((fun _ => (500 : Rat)) 0)
    ∧ (grpc.GetCurrentLight memOps traceSensorOps 0
        memory.NewReadingRepository { values := fun _ => 500, count := 0 }).1
      = .ok { ID := 1, Lux := 500, Timestamp := 0 }
    ∧ (grpc.GetCurrentLight memOps traceSensorOps 0
        memory.NewReadingRepository
          { values := fun _ => 500, count := 0 }).2.2.count = 1 := by
  refine ⟨by norm_num, ?_, ?_⟩
  · exact (C4_get_current_read_through_on_miss (fun _ => 500) 0 0
      (by norm_num)).1
  · exact (C4_get_current_read_through_on_miss (fun _ => 500) 0 0
      (by norm_num)).2.1

/-- Claim C5: whenever getInRange answers a GetHistory request with a
sequence rs, the response carries rs together with calculateStatistics rs,
where the average is the arithmetic mean of the lux values, min is a value of
the sequence that bounds every value from below, max is a value that bounds
every value from above, and an empty sequence yields the empty list — not an
error — with all three statistics zero-valued. -/
theorem C5_get_history_statistics {σ : Type} (repo : grpc.RepoOps σ)
    (st : σ) (startSec endSec : Int) (rs : List LightReading)
    (h : repo.GetReadingsInRange (startSec * nsPerSec) (endSec * nsPerSec) st
      = .ok rs) :
    grpc.GetHistory repo startSec endSec st
      = .ok (rs, grpc.calculateStatistics rs)
    ∧ (rs = [] → grpc.calculateStatistics rs
        = { average := 0, min := 0, max := 0 })
    ∧ (rs ≠ [] →
        (grpc.calculateStatistics rs).average
          = (rs.map (·.Lux)).sum / (rs.length : Rat)
        ∧ ((grpc.calculateStatistics rs).min ∈ rs.map (·.Lux)
          ∧ ∀ v ∈ rs.map (·.Lux), (grpc.calculateStatistics rs).min ≤ v)
        ∧ ((grpc.calculateStatistics rs).max ∈ rs.map (·.Lux)
          ∧ ∀ v ∈ rs.map (·.Lux), v ≤ (grpc.calculateStatistics rs).max)) := by
  refine ⟨?_, ?_, ?_⟩
  · simp [grpc.GetHistory, h]
  · intro he
    subst he
    rfl
  · intro hne
    cases rs with
    | nil => exact absurd rfl hne
    | cons r0 rest =>
        refine ⟨?_, ⟨?_, ?_⟩, ⟨?_, ?_⟩⟩
        · simp only [grpc.calculateStatistics, foldl_add_lux, zero_add]
        · rcases foldl_min_mem (r0 :: rest) r0.Lux with hm | hm
          · simp only [grpc.calculateStatistics, hm]
            exact List.mem_map_of_mem _ (List.mem_cons_self r0 rest)
          · simpa only [grpc.calculateStatistics] using hm
        · intro v hv
          rcases List.mem_map.mp hv with ⟨r, hr, hrv⟩
          simpa only [grpc.calculateStatistics, hrv] using
            foldl_min_le_mem (r0 :: rest) r0.Lux r hr
        · rcases foldl_max_mem (r0 :: rest) r0.Lux with hm | hm
          · simp only [grpc.calculateStatistics, hm]
            exact List.mem_map_of_mem _ (List.mem_cons_self r0 rest)
          · simpa only [grpc.calculateStatistics] using hm
        · intro v hv
          rcases List.mem_map.mp hv with ⟨r, hr, hrv⟩
          simpa only [grpc.calculateStatistics, hrv] using
            foldl_max_ge_mem (r0 :: rest) r0.Lux r hr

/-- Claim C5, witness at a concrete input: a memory store holding readings
with values 300 and 600 inside the queried range yields average 450, min 300,
max 600 and both readings. -/
theorem C5_get_history_statistics_witness :
    grpc.GetHistory memOps 0 100
      { readings :=
          [(1, { ID := 1, Lux := 300, Timestamp := 10 * nsPerSec }),
           (2, { ID := 2, Lux := 600, Timestamp := 20 * nsPerSec })],
        nextID := 3 }
      = .ok ([{ ID := 1, Lux := 300, Timestamp := 10 * nsPerSec },
              { ID := 2, Lux := 600, Timestamp := 20 * nsPerSec }],
             { average := 450, min := 300, max := 600 }) := by
  have h := (C5_get_history_statistics memOps
      { readings :=
          [(1, { ID := 1, Lux := 300, Timestamp := 10 * nsPerSec }),
           (2, { ID := 2, Lux := 600, Timestamp := 20 * nsPerSec })],
        nextID := 3 } 0 100
      [{ ID := 1, Lux := 300, Timestamp := 10 * nsPerSec },
       { ID := 2, Lux := 600, Timestamp := 20 * nsPerSec }] (by decide)).1
  rw [h]
  have hst : grpc.calculateStatistics
      [{ ID := 1, Lux := 300, Timestamp := 10 * nsPerSec },
       { ID := 2, Lux := 600, Timestamp := 20 * nsPerSec }]
      = { average := 450, min := 300, max := 600 } := by
    simp [grpc.calculateStatistics]
    norm_num
  rw [hst]

/-- Claim C6, counterexample: deleteOlderThan does not remove exactly the
readings with timestamp < now − age in the SQLite backend.  A reading saved
at 100 s is strictly older than now − age = 100.5 s (first conjunct), yet the
sweep leaves the repository unchanged (second conjunct) because the cutoff is
serialized at second resolution ("…: 100") while the stored driver text
extends past the same whole second and therefore does not sort below it; a
subsequent getByID on the reading does not report NotFound (third
conjunct). -/
theorem C6_sqlite_subsecond_cutoff_retains_older :
    (100 * nsPerSec : Int)
      < (3700 * nsPerSec + nsPerSec / 2) - 3600 * nsPerSec
    ∧ sqlite.DeleteOldReadings
        (sqlite.SaveReading sqlite.NewReadingRepository
          { ID := 0, Lux := 1, Timestamp := 100 * nsPerSec }).2
        (3700 * nsPerSec + nsPerSec / 2) (3600 * nsPerSec)
      = .ok (sqlite.SaveReading sqlite.NewReadingRepository
          { ID := 0, Lux := 1, Timestamp := 100 * nsPerSec }).2
    ∧ sqlite.GetReading
        (sqlite.SaveReading sqlite.NewReadingRepository
          { ID := 0, Lux := 1, Timestamp := 100 * nsPerSec }).2 1
      ≠ .error .ErrReadingNotFound := by decide

/-- Claim C6, amended: the in-memory backend removes exactly the readings
with timestamp < now − age (first conjunct: the sweep always succeeds and
filters out precisely those entries), retains every other reading (second
conjunct), and getByID on a removed reading then reports NotFound (third
conjunct, for stores with distinct ids, as Go maps guarantee); the SQLite
backend removes exactly the rows whose stored timestamp text sorts below the
cutoff formatted at second resolution (fourth conjunct), so a reading older
than now − age but within the same whole second as the cutoff is retained.
On whole-second data such as the spec example — readings 48 h and 1 h old,
deleteOlderThan(24 h) — both backends remove the stale reading and keep the
fresh one, and getByID on the removed reading reports NotFound (fifth and
sixth conjuncts).  Neither backend fails when there is nothing to delete:
the delete laws return .ok for every state, including empty ones. -/
theorem C6_amended_delete_semantics :
    (∀ (st : memory.ReadingRepository) (now age : Int),
        memory.DeleteOldReadings st now age
          = .ok { st with readings := (st.readings.filter
              (fun p => !(p.2.Timestamp < now - age))) })
    ∧ (∀ (st : memory.ReadingRepository) (now age id : Int)
        (r : LightReading), (id, r) ∈ st.readings →
        ¬(r.Timestamp < now - age) →
        ∃ st', memory.DeleteOldReadings st now age = .ok st'
          ∧ (id, r) ∈ st'.readings)
    ∧ (∀ (st : memory.ReadingRepository) (now age id : Int)
        (r : LightReading) (st' : memory.ReadingRepository),
        (st.readings.map Prod.fst).Nodup →
        memory.mapGet id st.readings = some r →
        r.Timestamp < now - age →
        memory.DeleteOldReadings st now age = .ok st' →
        memory.GetReading st' id = .error .ErrReadingNotFound)
    ∧ (∀ (st : sqlite.ReadingRepository) (now age : Int),
        sqlite.DeleteOldReadings st now age
          = .ok { st with rows := (st.rows.filter
              (fun row => !(sqlite.TsText.lt row.tsText
                  (sqlite.paramText (now - age))))) })
    ∧ (memory.DeleteOldReadings c6MemBefore
        (360000 * nsPerSec) (86400 * nsPerSec) = .ok c6MemAfter
      ∧ memory.GetReading c6MemAfter 1 = .error .ErrReadingNotFound
      ∧ memory.GetReading c6MemAfter 2
        = .ok { ID := 2, Lux := 200, Timestamp := 356400 * nsPerSec })
    ∧ (sqlite.DeleteOldReadings c6SqlBefore
        (360000 * nsPerSec) (86400 * nsPerSec) = .ok c6SqlAfter
      ∧ sqlite.GetReading c6SqlAfter 1 = .error .ErrReadingNotFound) := by
  refine ⟨fun st now age => rfl, ?_, ?_, fun st now age => rfl, by decide,
    by decide⟩
  · intro st now age id r hmem hkeep
    exact ⟨_, rfl, List.mem_filter.mpr ⟨hmem, by simp [hkeep]⟩⟩
  · intro st now age id r st' hnd hget hold hdel
    simp only [memory.DeleteOldReadings, Except.ok.injEq] at hdel
    subst hdel
    have hnone : memory.mapGet id (st.readings.filter
        (fun p => !(p.2.Timestamp < now - age))) = none :=
      mapGet_filter_eq_none id st.readings _ r hnd hget (by simp [hold])
    simp [memory.GetReading, hnone]

/-- Claim C6, amended, witness at a concrete input: on the example store the
removed 48-hour-old reading is no longer found by getByID. -/
theorem C6_amended_delete_semantics_witness :
    memory.GetReading c6MemAfter 1 = .error .ErrReadingNotFound := by
  exact C6_amended_delete_semantics.2.2.1 c6MemBefore
    (360000 * nsPerSec) (86400 * nsPerSec) 1
    { ID := 1, Lux := 100, Timestamp := 187200 * nsPerSec }
    c6MemAfter
    (by decide) (by decide) (by decide) (by decide)

/-- Claim C7: classification is a pure, deterministic function of the lux
value alone with thresholds 200 and 2500, a boundary value belonging to the
next-higher category: lux < 200 is Low Light, 200 ≤ lux < 2500 is Medium
Light, lux ≥ 2500 is High Light, and two readings with equal lux always
classify identically regardless of their other fields. -/
theorem C7_classification_thresholds (r : LightReading) :
    (r.Lux < 200 → r.LightCategory = "Low Light")
    ∧ (200 ≤ r.Lux → r.Lux < 2500 → r.LightCategory = "Medium Light")
    ∧ (2500 ≤ r.Lux → r.LightCategory = "High Light")
    ∧ (∀ s : LightReading, r.Lux = s.Lux →
        r.LightCategory = s.LightCategory) := by
  refine ⟨?_, ?_, ?_, ?_⟩
  · intro h
    simp [LightReading.LightCategory, LightReading.IsLowLight, h]
  · intro h1 h2
    simp [LightReading.LightCategory, LightReading.IsLowLight,
      LightReading.IsMediumLight, not_lt.mpr h1, h1, h2]
  · intro h
    have h1 : ¬ (r.Lux < 200) := not_lt.mpr (le_trans (by norm_num) h)
    have h2 : ¬ (r.Lux < 2500) := not_lt.mpr h
    simp [LightReading.LightCategory, LightReading.IsLowLight,
      LightReading.IsMediumLight, h1, h2]
  · intro s hs
    simp [LightReading.LightCategory, LightReading.IsLowLight,
      LightReading.IsMediumLight, hs]

/-- Claim C7, witness at concrete inputs: 100 is Low, the boundary 200 is
Medium, 2499 is Medium, and the boundary 2500 is High. -/
theorem C7_classification_thresholds_witness :
    ({ ID := 0, Lux := 100, Timestamp := 0 } : LightReading).LightCategory
      = "Low Light"
    ∧ ({ ID := 0, Lux := 200, Timestamp := 0 } : LightReading).LightCategory
      = "Medium Light"
    ∧ ({ ID := 0, Lux := 2499, Timestamp := 0 } : LightReading).LightCategory
      = "Medium Light"
    ∧ ({ ID := 0, Lux := 2500, Timestamp := 0 } : LightReading).LightCategory
      = "High Light" := by
  refine ⟨(C7_classification_thresholds _).1 (by norm_num),
    (C7_classification_thresholds _).2.1 (by norm_num) (by norm_num),
    (C7_classification_thresholds _).2.1 (by norm_num) (by norm_num),
    (C7_classification_thresholds _).2.2.1 (by norm_num)⟩

/-- Claim C8: RecordReading with a negative value fails with the
InvalidArgument client-error classification and leaves the backend state
unchanged; with a non-negative value it constructs a reading carrying exactly
that value (id unset, request-time timestamp), saves it through the Storage
Port, and returns whatever the save produced. -/
theorem C8_record_reading {σ : Type} (repo : grpc.RepoOps σ) (lux : Rat)
    (now : Int) (st : σ) :
    (lux < 0 →
      grpc.RecordReading repo lux now st = (.error .InvalidArgument, st))
    ∧ (0 ≤ lux → ∀ (r' : LightReading) (st' : σ),
        repo.SaveReading { ID := 0, Lux := lux, Timestamp := now } st
          = .ok (r', st') →
        grpc.RecordReading repo lux now st = (.ok r', st')) := by
  constructor
  · intro h
    simp [grpc.RecordReading, NewLightReading, h]
  · intro h r' st' hsave
    simp [grpc.RecordReading, NewLightReading, not_lt.mpr h, hsave]

/-- Claim C8, witness at concrete inputs: recording 42 on a fresh memory
store saves and returns the reading with id 1, and recording -10 is rejected
as InvalidArgument with the store untouched. -/
theorem C8_record_reading_witness :
    grpc.RecordReading memOps 42 0 memory.NewReadingRepository
      = (.ok { ID := 1, Lux := 42, Timestamp := 0 },
          { readings := [(1, { ID := 1, Lux := 42, Timestamp := 0 })],
            nextID := 2 })
    ∧ grpc.RecordReading memOps (-10) 0 memory.NewReadingRepository
      = (.error .InvalidArgument, memory.NewReadingRepository) := by
  constructor
  · exact (C8_record_reading memOps 42 0 memory.NewReadingRepository).2
      (by norm_num) _ _ (by decide)
  · exact (C8_record_reading memOps (-10) 0 memory.NewReadingRepository).1
      (by norm_num)

/-- Writing the ID field through a pointer is observed by a dereference of
that pointer. -/
theorem deref_writeID (h : memheap.Heap) (p : memheap.Ptr) (i : Int)
    (r : LightReading) (hp : memheap.deref h p = some r) :
    memheap.deref (memheap.writeID h p i) p = some { r with ID := i } := by
  induction h with
  | nil => cases hp
  | cons c rest ih =>
      obtain ⟨q, s⟩ := c
      by_cases hq : q = p
      · subst hq
        have hs : s = r := by simpa [memheap.deref] using hp
        subst hs
        simp [memheap.writeID, memheap.deref]
      · have hp' : memheap.deref rest p = some r := by
          simpa [memheap.deref, hq] using hp
        simp [memheap.writeID, memheap.deref, hq, ih hp']

/-- Writing the Lux field through a pointer is observed by a dereference of
that pointer. -/
theorem deref_writeLux (h : memheap.Heap) (p : memheap.Ptr) (v : Rat)
    (r : LightReading) (hp : memheap.deref h p = some r) :
    memheap.deref (memheap.writeLux h p v) p = some { r with Lux := v } := by
  induction h with
  | nil => cases hp
  | cons c rest ih =>
      obtain ⟨q, s⟩ := c
      by_cases hq : q = p
      · subst hq
        have hs : s = r := by simpa [memheap.deref] using hp
        subst hs
        simp [memheap.writeLux, memheap.deref]
      · have hp' : memheap.deref rest p = some r := by
          simpa [memheap.deref, hq] using hp
        simp [memheap.writeLux, memheap.deref, hq, ih hp']

/-- Claim C9, counterexample: a Reading handed out by the volatile backend is
not a snapshot.  Save a reading through pointer 0; GetReading of its id hands
back pointer 0 itself (first conjunct); after the caller mutates the object
behind that pointer to lux 999, dereferencing what the backend returns yields
the mutated reading (second conjunct) and no longer the value that was saved
(third conjunct). -/
theorem C9_memory_reading_is_aliased :
    memheap.GetReadingP
      (memheap.SaveReadingP [(0, { ID := 0, Lux := 500, Timestamp := 7 })]
        { readings := [], nextID := 1 } 0).2 1 = .ok 0
    ∧ memheap.deref
        (memheap.writeLux
          (memheap.SaveReadingP
            [(0, { ID := 0, Lux := 500, Timestamp := 7 })]
            { readings := [], nextID := 1 } 0).1 0 999) 0
      = some { ID := 1, Lux := 999, Timestamp := 7 }
    ∧ memheap.deref
        (memheap.writeLux
          (memheap.SaveReadingP
            [(0, { ID := 0, Lux := 500, Timestamp := 7 })]
            { readings := [], nextID := 1 } 0).1 0 999) 0
      ≠ some { ID := 1, Lux := 500, Timestamp := 7 } := by decide

/-- Claim C9, amended: the volatile backend shares readings by reference.
SaveReading stores the very pointer it was handed (after assigning the id
through it), GetReading of the assigned id returns that same pointer, and a
caller mutation through the pointer is therefore visible to every subsequent
read: dereferencing after writing lux v yields the stored reading with lux
v. -/
theorem C9_amended_reference_semantics (h : memheap.Heap)
    (st : memheap.RepositoryP) (p : memheap.Ptr) (r : LightReading)
    (hp : memheap.deref h p = some r) (h0 : r.ID = 0) :
    memheap.GetReadingP (memheap.SaveReadingP h st p).2 st.nextID = .ok p
    ∧ ∀ v : Rat,
        memheap.deref
          (memheap.writeLux (memheap.SaveReadingP h st p).1 p v) p
          = some { r with ID := st.nextID, Lux := v } := by
  constructor
  · simp [memheap.SaveReadingP, hp, h0, memheap.GetReadingP]
  · intro v
    have h1 : memheap.deref (memheap.SaveReadingP h st p).1 p
        = some { r with ID := st.nextID } := by
      simp only [memheap.SaveReadingP, hp, h0, if_pos rfl]
      exact deref_writeID h p st.nextID r hp
    simpa using deref_writeLux _ p v _ h1

/-- Claim C9, amended, witness at a concrete input: the saved pointer is
handed back by GetReading and reflects the caller mutation to lux 999. -/
theorem C9_amended_reference_semantics_witness :
    memheap.GetReadingP
      (memheap.SaveReadingP [(0, { ID := 0, Lux := 500, Timestamp := 7 })]
        { readings := [], nextID := 1 } 0).2 1 = .ok 0
    ∧ memheap.deref
        (memheap.writeLux
          (memheap.SaveReadingP
            [(0, { ID := 0, Lux := 500, Timestamp := 7 })]
            { readings := [], nextID := 1 } 0).1 0 999) 0
      = some { ID := 1, Lux := 999, Timestamp := 7 } := by
  have h := C9_amended_reference_semantics [(0, { ID := 0, Lux := 500, Timestamp := 7 })]
    { readings := [], nextID := 1 } 0
    { ID := 0, Lux := 500, Timestamp := 7 } (by decide) (by decide)
  exact ⟨h.1, h.2 999⟩

/-- Claim C10: the mock sensor never fails (its Go method returns a nil
error unconditionally, so the model is a total function) and clamps its
result at 0, so for every base value, variation and random draw the value it
returns is non-negative and NewLightReading accepts it, yielding a reading
that carries exactly that value. -/
theorem C10_fake_sensor_non_negative (base variation rand01 : Rat) (now : Int) (v : Rat)
    (hv : v = FakeSensor.ReadLux
      { baseValue := base, variation := variation } rand01) :
    0 ≤ v
    ∧ NewLightReading v now
      = .ok { ID := 0, Lux := v, Timestamp := now } := by
  have h : 0 ≤ v := by
    rw [hv]
    simp only [FakeSensor.ReadLux]
    split
    · exact le_refl 0
    · exact le_of_not_lt (by assumption)
  exact ⟨h, by simp [NewLightReading, not_lt.mpr h]⟩

/-- Claim C10, witness at a concrete input: base 500, variation 100, draw 0
reads 400, which is non-negative and accepted by NewLightReading. -/
theorem C10_fake_sensor_non_negative_witness :
    (0 : Rat) ≤ 400
    ∧ NewLightReading 400 0
      = .ok { ID := 0, Lux := 400, Timestamp := 0 } := by
  exact C10_fake_sensor_non_negative 500 100 0 0 400 (by norm_num [FakeSensor.ReadLux])
